import Mathlib

/-!
Verification development for the binx interactive binary viewer
(`main.go`): a shallow embedding of the application state, the action
reducer (`rootReducer`), the byte-pattern search (`findBytePattern`
together with the Go standard-library functions it calls), and the
render pass, with theorems checking the specified behavior.

Machine integers (`int64`, `int`) are modelled as unbounded `Int`;
the arithmetic performed by the reducer and renderer never reaches the
the two-complement boundaries on the inputs considered here, and where
the Go `strconv` range semantics matter (64-bit parsing) the bounds are
carried explicitly. Strings are treated as their character sequences;
the inputs of interest are ASCII, where the Go byte-wise scanning and
character-wise scanning agree.
-/

namespace Binx

/-! ## Input modes (constants `NormalMode`, `SeekInputMode`, `PatternInputMode`) -/

inductive Mode where
  | NormalMode
  | SeekInputMode
  | PatternInputMode
deriving DecidableEq, Repr

/-! ## Action name constants, as in the `// Actions` const block of main.go -/

def BinxResize : String := "BINX_RESIZE"

def BinxEscape : String := "BINX_ESCAPE"

def BinxKeyEnter : String := "BINX_KEYENTER"

def BinxKeyUp : String := "BINX_KEYUP"

def BinxKeyDown : String := "BINX_KEYDOWN"

def BinxSetScreenStyle : String := "BINX_SETSTYLE"

def BinxKeyS : String := "BINX_KEY_S"

def BinxKeyF : String := "BINX_KEY_F"

def BinxKeyOther : String := "BINX_KEY_OTHER"

/-- Action: `name` is the enumerated tag; the payload is the key rune for
the key actions (the resize and style payloads carry no data the reducer
reads beyond the screen, which is passed to the reducer separately). -/
structure Action where
  name : String
  rune : Char
deriving DecidableEq, Repr

/-- AppState of main.go, restricted to the fields the reducer and renderer
read or write. The `screen`, style and mutex fields are I/O collaborators:
the current screen height (read by the `BinxResize` branch) is passed to
the reducer as an explicit argument. -/
structure AppState where
  dat : List Nat
  byteVisWidth : Int
  byteVisHeight : Int
  startByte : Int
  mode : Mode
  userInput : String
  highlightPos : Int
  highlightLength : Int
  lastAction : String
  status : String
deriving DecidableEq, Repr

/-! ## encoding/hex: `hex.DecodeString`, as called by `findBytePattern` -/

/-- Error values produced by `hex.Decode`: `InvalidByteError` for a
non-hex character, `ErrLength` for an odd-length input. -/
inductive HexErr where
  | invalidByte (c : Char)
  | oddLength
deriving DecidableEq, Repr

/-- fromHexChar of encoding/hex: the value of one hex digit, or failure. -/
def fromHexChar (c : Char) : Option Nat :=
  if 48 ≤ c.toNat ∧ c.toNat ≤ 57 then some (c.toNat - 48)
  else if 97 ≤ c.toNat ∧ c.toNat ≤ 102 then some (c.toNat - 97 + 10)
  else if 65 ≤ c.toNat ∧ c.toNat ≤ 70 then some (c.toNat - 65 + 10)
  else none

/-- hex.Decode pair loop: decode two hex digits per output byte, left to
right, reporting the earliest invalid character; a trailing lone digit is
`ErrLength` (or `InvalidByteError` if that trailing character is not hex).
`findBytePattern` discards the partial output Go returns alongside an
error, so the error-carrying `Except` models the call faithfully. -/
def hexDecodeLoop : List Char → Except HexErr (List Nat)
  | [] => Except.ok []
  | [c] =>
    match fromHexChar c with
    | none => Except.error (HexErr.invalidByte c)
    | some _ => Except.error HexErr.oddLength
  | p :: q :: rest =>
    match fromHexChar p with
    | none => Except.error (HexErr.invalidByte p)
    | some a =>
      match fromHexChar q with
      | none => Except.error (HexErr.invalidByte q)
      | some b =>
        match hexDecodeLoop rest with
        | Except.error e => Except.error e
        | Except.ok bs => Except.ok ((a * 16 + b) :: bs)

/-- Error strings as produced by the `Error()` methods of encoding/hex
(`%#U` formatting of the offending rune, without modelling the escaping
of non-printable runes, which no claim exercises). -/
def hexDigitUpper (n : Nat) : Char :=
  if n < 10 then Char.ofNat (48 + n) else Char.ofNat (55 + n)

/-- Hexadecimal digits of `n`, uppercase, padded to at least four digits
(the `%04X` part of `%#U`); `fuel` bounds the recursion. -/
def hexPad : Nat → Nat → List Char → List Char
  | 0, _, acc => acc
  | f + 1, n, acc =>
    if n = 0 ∧ 4 ≤ acc.length then acc
    else hexPad f (n / 16) (hexDigitUpper (n % 16) :: acc)

def hexErrString : HexErr → String
  | HexErr.oddLength => "encoding/hex: odd length hex string"
  | HexErr.invalidByte c =>
    -- the rune is single-quoted (codepoint 39) by the %#U format verb
    "encoding/hex: invalid byte: U+" ++ String.mk (hexPad 8 c.toNat []) ++ " " ++
      String.singleton (Char.ofNat 39) ++ String.singleton c ++ String.singleton (Char.ofNat 39)

/-! ## bytes.Index -/

/-- bytes.Index(s, sep): the index of the first instance of `sep` in `s`,
or -1 if `sep` is not present (0 when `sep` is empty). -/
def bytesIndexAux (pat : List Nat) : List Nat → Int
  | [] => if pat.isPrefixOf ([] : List Nat) then 0 else -1
  | b :: rest =>
    if pat.isPrefixOf (b :: rest) then 0
    else
      let r := bytesIndexAux pat rest
      if r = -1 then -1 else r + 1

def bytesIndex (s pat : List Nat) : Int := bytesIndexAux pat s

/-- findBytePattern of main.go: decode the hex string `p`; on a decode
error return (0, the error); otherwise return (bytes.Index result, nil). -/
def findBytePattern (p : String) (buf : List Nat) : Int × Option HexErr :=
  match hexDecodeLoop p.data with
  | Except.error e => (0, some e)
  | Except.ok decodedPattern => (bytesIndex buf decodedPattern, none)

/-! ## strconv.ParseInt(s, 0, 64), as called by the SeekInput Commit branch -/

inductive ParseErr where
  | syntaxErr
  | rangeErr
deriving DecidableEq, Repr

/-- Digit value of a character for the strconv digit loop: `0`-`9`, and
letters (either case) valued 10..35; `none` for any other character. -/
def digitVal (c : Char) : Option Nat :=
  if 48 ≤ c.toNat ∧ c.toNat ≤ 57 then some (c.toNat - 48)
  else if 97 ≤ c.toNat ∧ c.toNat ≤ 122 then some (c.toNat - 97 + 10)
  else if 65 ≤ c.toNat ∧ c.toNat ≤ 90 then some (c.toNat - 65 + 10)
  else none

/-- State loop of the strconv underscoreOK check: each underscore must
sit between a digit (or base prefix) and a digit. `hex` means hex letters
count as digits. `saw` is the kind of the previous character, encoded as
in the Go source: `^` beginning, `0` digit or prefix, `_` underscore,
`!` anything else. -/
def underscoreLoop (hex : Bool) (saw : Char) : List Char → Bool
  | [] => saw ≠ '_'
  | c :: rest =>
    if (48 ≤ c.toNat ∧ c.toNat ≤ 57) ∨
        (hex ∧ ((97 ≤ c.toNat ∧ c.toNat ≤ 102) ∨ (65 ≤ c.toNat ∧ c.toNat ≤ 70))) then
      underscoreLoop hex '0' rest
    else if c = '_' then
      if saw ≠ '0' then false else underscoreLoop hex '_' rest
    else if saw = '_' then false
    else underscoreLoop hex '!' rest

def underscoreOK (s : List Char) : Bool :=
  let s1 := match s with
    | c :: rest => if c = '-' ∨ c = '+' then rest else c :: rest
    | [] => []
  match s1 with
  | c0 :: c1 :: rest =>
    if c0 = '0' ∧ (c1 = 'b' ∨ c1 = 'B' ∨ c1 = 'o' ∨ c1 = 'O' ∨ c1 = 'x' ∨ c1 = 'X') then
      underscoreLoop (c1 = 'x' ∨ c1 = 'X') '0' rest
    else underscoreLoop false '^' (c0 :: c1 :: rest)
  | s1 => underscoreLoop false '^' s1

/-- Base detection of strconv.ParseUint for base argument 0: `0b`/`0o`/`0x`
prefixes (when at least one character follows), a bare leading `0` meaning
octal, else decimal. Returns the base and the remaining digit characters. -/
def splitBase0 : List Char → Nat × List Char
  | '0' :: c :: rest =>
    if (c = 'b' ∨ c = 'B') ∧ 1 ≤ rest.length then (2, rest)
    else if (c = 'o' ∨ c = 'O') ∧ 1 ≤ rest.length then (8, rest)
    else if (c = 'x' ∨ c = 'X') ∧ 1 ≤ rest.length then (16, rest)
    else (8, c :: rest)
  | ['0'] => (8, [])
  | s => (10, s)

/-- Digit accumulation loop of strconv.ParseUint with bitSize 64 and base
argument 0 (so underscores are tolerated here and validated afterwards).
Returns the accumulated value, an error, and whether underscores were
seen. The Go wrap-around overflow test `n1 < n || n1 > maxVal` on `uint64`
is equivalent to the unbounded test `n * base + d > 2^64 - 1`. -/
def parseUintLoop (base : Nat) : List Char → Nat → Bool → Nat × Option ParseErr × Bool
  | [], n, und => (n, none, und)
  | c :: rest, n, und =>
    if c = '_' then parseUintLoop base rest n true
    else
      match digitVal c with
      | none => (0, some ParseErr.syntaxErr, und)
      | some d =>
        if base ≤ d then (0, some ParseErr.syntaxErr, und)
        else if (2 ^ 64 - 1) / base + 1 ≤ n then (2 ^ 64 - 1, some ParseErr.rangeErr, und)
        else if 2 ^ 64 - 1 < n * base + d then (2 ^ 64 - 1, some ParseErr.rangeErr, und)
        else parseUintLoop base rest (n * base + d) und

/-- strconv.ParseUint(s, 0, 64). -/
def goParseUint64 (s : List Char) : Nat × Option ParseErr :=
  if s.isEmpty then (0, some ParseErr.syntaxErr)
  else
    let bd := splitBase0 s
    match parseUintLoop bd.1 bd.2 0 false with
    | (n, some e, _) => (n, some e)
    | (n, none, und) =>
      if und ∧ ¬ underscoreOK s then (0, some ParseErr.syntaxErr) else (n, none)

/-- strconv.ParseInt(s, 0, 64): strip an optional sign, parse the rest as
unsigned, turn a syntax error into (0, syntax), clamp out-of-range values
to the signed 64-bit bounds with a range error, else negate if needed. -/
def goParseInt64 (s : List Char) : Int × Option ParseErr :=
  if s.isEmpty then (0, some ParseErr.syntaxErr)
  else
    let signSplit : Bool × List Char :=
      match s with
      | '+' :: rest => (false, rest)
      | '-' :: rest => (true, rest)
      | _ => (false, s)
    let neg := signSplit.1
    match goParseUint64 signSplit.2 with
    | (_, some ParseErr.syntaxErr) => (0, some ParseErr.syntaxErr)
    | (un, _) =>
      if ¬ neg ∧ 2 ^ 63 ≤ un then ((2 ^ 63 - 1 : Int), some ParseErr.rangeErr)
      else if neg ∧ 2 ^ 63 < un then (-(2 ^ 63 : Int), some ParseErr.rangeErr)
      else ((if neg then -(un : Int) else (un : Int)), none)

/-! ## rootReducer -/

/-- rootReducer of main.go, as the closed-over function applied to one
action. `screenH` is the height the screen reports (read by the resize
branch). The result is `none` exactly when the Go code calls `os.Exit(0)`
(Escape in Normal mode); otherwise `some` of the updated state. The
`BinxSetScreenStyle` branch only touches the screen collaborator. -/
def rootReducer (screenH : Int) (state : AppState) (action : Action) : Option AppState :=
  let state := { state with lastAction := action.name }
  if action.name = BinxKeyUp then
    let w := state.byteVisWidth
    let sb := state.startByte - w
    some { state with startByte := if sb < 0 then 0 else sb }
  else if action.name = BinxKeyDown then
    some { state with startByte := state.startByte + state.byteVisWidth }
  else if action.name = BinxResize then
    some { state with byteVisHeight := screenH - 1 }
  else if action.name = BinxEscape then
    if state.mode = Mode.NormalMode then
      none
    else
      let state :=
        if state.mode = Mode.SeekInputMode then
          { state with mode := Mode.NormalMode, userInput := "" }
        else state
      let state :=
        if state.mode = Mode.PatternInputMode then
          { state with mode := Mode.NormalMode, userInput := "" }
        else state
      some state
  else if action.name = BinxKeyEnter then
    if state.mode = Mode.SeekInputMode then
      -- Go assigns the parsed value and resets mode and input before
      -- looking at the error; the `break` on error does nothing further.
      let startByte := (goParseInt64 state.userInput.data).1
      some { state with startByte := startByte, userInput := "", mode := Mode.NormalMode }
    else if state.mode = Mode.PatternInputMode then
      let r := findBytePattern state.userInput state.dat
      let state :=
        match r.2 with
        | some e => { state with status := hexErrString e }
        | none => state
      some { state with highlightPos := r.1, userInput := "" }
    else
      some state
  else if action.name = BinxSetScreenStyle then
    some state
  else if action.name = BinxKeyS then
    if state.mode = Mode.NormalMode then
      some { state with mode := Mode.SeekInputMode, userInput := "" }
    else if state.mode = Mode.SeekInputMode then
      some { state with userInput := state.userInput.push action.rune }
    else
      some state
  else if action.name = BinxKeyF then
    if state.mode = Mode.NormalMode then
      some { state with mode := Mode.PatternInputMode, userInput := "" }
    else
      some { state with userInput := state.userInput.push action.rune }
  else if action.name = BinxKeyOther then
    if state.mode = Mode.SeekInputMode then
      some { state with userInput := state.userInput.push action.rune }
    else
      some state
  else
    some state

/-- Sequence of reductions; `none` as soon as one step exits. -/
def runActions (screenH : Int) (state : AppState) : List Action → Option AppState
  | [] => some state
  | a :: rest =>
    match rootReducer screenH state a with
    | none => none
    | some s2 => runActions screenH s2 rest

/-! ## render -/

/-- Grid cells written by the render loop: for index `i` into the slice,
cell (i mod w, i div w) gets the color of byte `b`. -/
def renderCells (w : Int) (slice : List Nat) : List (Int × Int × Nat) :=
  ((List.range slice.length).zip slice).map (fun p => ((p.1 : Int) % w, (p.1 : Int) / w, p.2))

/-- render of main.go. The Go body evaluates the slice expression
`state.dat[state.startByte : state.startByte+int64(numVisibleBytes)]`,
which panics unless `0 <= startByte` and
`startByte + numVisibleBytes <= len(dat)`; `none` models that panic. -/
def render (state : AppState) : Option (List (Int × Int × Nat)) :=
  let w := state.byteVisWidth
  let h := state.byteVisHeight
  let n0 := w * h
  let numVisibleBytes := if n0 < 0 then 0 else n0
  if 0 ≤ state.startByte ∧ state.startByte + numVisibleBytes ≤ (state.dat.length : Int) then
    some (renderCells w ((state.dat.drop state.startByte.toNat).take numVisibleBytes.toNat))
  else
    none

/-- Initial AppState built in main(): width 80, height the terminal height
minus one, offset 0, Normal mode, remaining fields zero values. -/
def initialState (dat : List Nat) (termHeight : Int) : AppState :=
  { dat := dat
    byteVisWidth := 80
    byteVisHeight := termHeight - 1
    startByte := 0
    mode := Mode.NormalMode
    userInput := ""
    highlightPos := 0
    highlightLength := 0
    lastAction := ""
    status := "" }

/-! ## Concrete states used by counterexamples and witnesses -/

/-- PatternInput-mode state holding the invalid hex input "zz" and a
previously established highlight position. -/
def patternZZState : AppState :=
  { dat := [0, 1]
    byteVisWidth := 80
    byteVisHeight := 24
    startByte := 0
    mode := Mode.PatternInputMode
    userInput := "zz"
    highlightPos := 7
    highlightLength := 0
    lastAction := ""
    status := "" }

/-- SeekInput-mode state holding the unparseable input "zz". -/
def seekZZState : AppState :=
  { dat := [0, 1]
    byteVisWidth := 80
    byteVisHeight := 24
    startByte := 42
    mode := Mode.SeekInputMode
    userInput := "zz"
    highlightPos := 0
    highlightLength := 0
    lastAction := ""
    status := "" }

/-- SeekInput-mode state holding the hex literal "0x10". -/
def seekHexState : AppState :=
  { dat := [0, 1]
    byteVisWidth := 80
    byteVisHeight := 24
    startByte := 42
    mode := Mode.SeekInputMode
    userInput := "0x10"
    highlightPos := 0
    highlightLength := 0
    lastAction := ""
    status := "" }

/-- SeekInput-mode state with pending input, offset 7 and highlight 3. -/
def seekPendingState : AppState :=
  { dat := [1, 2]
    byteVisWidth := 80
    byteVisHeight := 24
    startByte := 7
    mode := Mode.SeekInputMode
    userInput := "123"
    highlightPos := 3
    highlightLength := 0
    lastAction := ""
    status := "" }

/-- Normal-mode state thirty bytes into the buffer. -/
def normalAt30State : AppState :=
  { dat := []
    byteVisWidth := 80
    byteVisHeight := 24
    startByte := 30
    mode := Mode.NormalMode
    userInput := ""
    highlightPos := 0
    highlightLength := 0
    lastAction := ""
    status := "" }

/-! ## Lemmas about the byte search and hex decoding -/

theorem bytesIndexAux_finds (pat : List Nat) :
    ∀ (s : List Nat) (i : Nat), pat.isPrefixOf (s.drop i) = true →
      ∃ k : Nat, bytesIndexAux pat s = (k : Int) ∧ pat.isPrefixOf (s.drop k) = true ∧
        ∀ j < k, pat.isPrefixOf (s.drop j) = false := by
  intro s
  induction s with
  | nil =>
    intro i hi
    rw [List.drop_nil] at hi
    refine ⟨0, ?_, ?_, ?_⟩
    · simp [bytesIndexAux, hi]
    · rw [List.drop_nil]
      exact hi
    · intro j hj
      exact absurd hj (Nat.not_lt_zero j)
  | cons b rest ih =>
    intro i hi
    by_cases hc : pat.isPrefixOf (b :: rest) = true
    · refine ⟨0, ?_, ?_, ?_⟩
      · simp [bytesIndexAux, hc]
      · rw [List.drop_zero]
        exact hc
      · intro j hj
        exact absurd hj (Nat.not_lt_zero j)
    · cases i with
      | zero =>
        rw [List.drop_zero] at hi
        exact absurd hi hc
      | succ i2 =>
        rw [List.drop_succ_cons] at hi
        obtain ⟨k, hk, hpre, hmin⟩ := ih i2 hi
        have hne : (k : Int) ≠ -1 := by omega
        refine ⟨k + 1, ?_, ?_, ?_⟩
        · simp only [bytesIndexAux]
          rw [if_neg hc, hk, if_neg hne]
          omega
        · rw [List.drop_succ_cons]
          exact hpre
        · intro j hj
          cases j with
          | zero =>
            rw [List.drop_zero]
            exact Bool.not_eq_true _ ▸ hc
          | succ j2 =>
            rw [List.drop_succ_cons]
            exact hmin j2 (by omega)

theorem bytesIndexAux_misses (pat : List Nat) :
    ∀ (s : List Nat), (∀ i, i ≤ s.length → pat.isPrefixOf (s.drop i) = false) →
      bytesIndexAux pat s = -1 := by
  intro s
  induction s with
  | nil =>
    intro hmiss
    have h0 := hmiss 0 (Nat.le_refl 0)
    rw [List.drop_zero] at h0
    simp [bytesIndexAux, h0]
  | cons b rest ih =>
    intro hmiss
    have h0 := hmiss 0 (Nat.zero_le _)
    rw [List.drop_zero] at h0
    have hrest : ∀ i, i ≤ rest.length → pat.isPrefixOf (rest.drop i) = false := by
      intro i hi
      have := hmiss (i + 1) (by simp only [List.length_cons]; omega)
      rwa [List.drop_succ_cons] at this
    simp [bytesIndexAux, h0, ih hrest]

theorem hexDecodeLoop_odd : ∀ (s : List Char), s.length % 2 = 1 →
    ∃ e, hexDecodeLoop s = Except.error e
  | [], hodd => by simp at hodd
  | [c], _ => by
    cases hfc : fromHexChar c with
    | none => exact ⟨HexErr.invalidByte c, by simp [hexDecodeLoop, hfc]⟩
    | some a => exact ⟨HexErr.oddLength, by simp [hexDecodeLoop, hfc]⟩
  | p :: q :: rest, hodd => by
    cases hfp : fromHexChar p with
    | none => exact ⟨HexErr.invalidByte p, by simp [hexDecodeLoop, hfp]⟩
    | some a =>
      cases hfq : fromHexChar q with
      | none => exact ⟨HexErr.invalidByte q, by simp [hexDecodeLoop, hfp, hfq]⟩
      | some b =>
        obtain ⟨e, he⟩ :=
          hexDecodeLoop_odd rest (by simp only [List.length_cons] at hodd ⊢; omega)
        exact ⟨e, by simp [hexDecodeLoop, hfp, hfq, he]⟩

theorem hexDecodeLoop_invalid : ∀ (s : List Char) (c : Char), c ∈ s →
    fromHexChar c = none → ∃ e, hexDecodeLoop s = Except.error e
  | [], c, hc, _ => absurd hc (List.not_mem_nil c)
  | [d], c, hc, hinv => by
    cases hfd : fromHexChar d with
    | none => exact ⟨HexErr.invalidByte d, by simp [hexDecodeLoop, hfd]⟩
    | some a => exact ⟨HexErr.oddLength, by simp [hexDecodeLoop, hfd]⟩
  | p :: q :: rest, c, hc, hinv => by
    cases hfp : fromHexChar p with
    | none => exact ⟨HexErr.invalidByte p, by simp [hexDecodeLoop, hfp]⟩
    | some a =>
      cases hfq : fromHexChar q with
      | none => exact ⟨HexErr.invalidByte q, by simp [hexDecodeLoop, hfp, hfq]⟩
      | some b =>
        simp only [List.mem_cons] at hc
        rcases hc with hcp | hcq | hcr
        · rw [← hcp, hinv] at hfp
          simp at hfp
        · rw [← hcq, hinv] at hfq
          simp at hfq
        · obtain ⟨e, he⟩ := hexDecodeLoop_invalid rest c hcr hinv
          exact ⟨e, by simp [hexDecodeLoop, hfp, hfq, he]⟩

/-! ## Claim theorems -/

/-- C1: the invariant `startByte >= 0` is violated by the code. Starting
from the initial state (buffer of three bytes, terminal height 25), the
reachable action sequence press-s, type the character for minus, type the
character for one, press Enter commits the seek input "-1": ParseInt
succeeds with -1 and the reducer stores it unclamped, leaving
startByte = -1 (the next render pass would slice the buffer at a negative
offset and panic). -/
theorem c1_seek_commit_reaches_negative_startByte :
    (runActions 25 (initialState [1, 2, 3] 25)
        [⟨BinxKeyS, 's'⟩, ⟨BinxKeyOther, '-'⟩, ⟨BinxKeyOther, '1'⟩,
          ⟨BinxKeyEnter, ' '⟩]).map AppState.startByte = some (-1) := by decide

/-- C2: violated by the code. With a 10-byte buffer, startByte = 0 ≥ 0 and
positive viewport dimensions 80 × 24, the render pass slices
dat[0 : 0 + 1920] without clamping to the buffer length, so it panics
(`none`) instead of treating cells past end-of-buffer as absent. -/
theorem c2_render_panics_past_end_of_buffer :
    0 ≤ (initialState [0, 1, 2, 3, 4, 5, 6, 7, 8, 9] 25).startByte ∧
    0 < (initialState [0, 1, 2, 3, 4, 5, 6, 7, 8, 9] 25).byteVisWidth ∧
    0 < (initialState [0, 1, 2, 3, 4, 5, 6, 7, 8, 9] 25).byteVisHeight ∧
    render (initialState [0, 1, 2, 3, 4, 5, 6, 7, 8, 9] 25) = none := by decide

/-- C3 counterexample: committing the invalid pattern "zz" in PatternInput
mode leaves the mode at PatternInput (not Normal, as claimed) and
overwrites highlightPos with 0 (it was 7, and the claim says it is left
unchanged on failure). -/
theorem c3_pattern_commit_cex :
    (rootReducer 25 patternZZState ⟨BinxKeyEnter, ' '⟩).map AppState.mode =
      some Mode.PatternInputMode ∧
    (rootReducer 25 patternZZState ⟨BinxKeyEnter, ' '⟩).map AppState.mode ≠
      some Mode.NormalMode ∧
    patternZZState.highlightPos = 7 ∧
    (rootReducer 25 patternZZState ⟨BinxKeyEnter, ' '⟩).map AppState.highlightPos =
      some 0 := by decide

/-- C3 amended: in PatternInput mode, Commit always clears userInput and
keeps the mode at PatternInput; it unconditionally stores the first
component of the search result in highlightPos (0 on a decode error, -1
when no occurrence exists, the offset on success); the status is set to
the decode error message exactly when decoding fails and is untouched
otherwise; startByte is unchanged. -/
theorem c3_pattern_commit_behavior (screenH : Int) (s : AppState) (c : Char)
    (hm : s.mode = Mode.PatternInputMode) :
    ∃ s2, rootReducer screenH s ⟨BinxKeyEnter, c⟩ = some s2 ∧
      s2.mode = Mode.PatternInputMode ∧
      s2.userInput = "" ∧
      s2.startByte = s.startByte ∧
      s2.highlightPos = (findBytePattern s.userInput s.dat).1 ∧
      s2.status = (match (findBytePattern s.userInput s.dat).2 with
        | some e => hexErrString e
        | none => s.status) := by
  obtain ⟨dat, w, h, sb, mode, ui, hp, hl, la, st⟩ := s
  have hm2 : mode = Mode.PatternInputMode := hm
  subst hm2
  rcases hr : findBytePattern ui dat with ⟨pos, err⟩
  cases err with
  | none =>
    refine ⟨⟨dat, w, h, sb, Mode.PatternInputMode, "", pos, hl, BinxKeyEnter, st⟩,
      ?_, rfl, rfl, rfl, rfl, rfl⟩
    unfold rootReducer
    simp only [hr]
    rfl
  | some e =>
    refine ⟨⟨dat, w, h, sb, Mode.PatternInputMode, "", pos, hl, BinxKeyEnter, hexErrString e⟩,
      ?_, rfl, rfl, rfl, rfl, rfl⟩
    unfold rootReducer
    simp only [hr]
    rfl

/-- C3 witness: the amended behavior at the concrete invalid pattern "zz":
mode stays PatternInput, input cleared, highlightPos set to 0, status set
to the encoding/hex invalid-byte message. -/
theorem c3_pattern_commit_behavior_witness :
    patternZZState.mode = Mode.PatternInputMode ∧
    ∃ s2, rootReducer 25 patternZZState ⟨BinxKeyEnter, ' '⟩ = some s2 ∧
      s2.mode = Mode.PatternInputMode ∧ s2.userInput = "" ∧ s2.startByte = 0 ∧
      s2.highlightPos = 0 ∧ s2.status = hexErrString (HexErr.invalidByte 'z') := by
  refine ⟨rfl, ?_⟩
  obtain ⟨s2, h1, h2, h3, h4, h5, h6⟩ :=
    c3_pattern_commit_behavior 25 patternZZState ' ' rfl
  refine ⟨s2, h1, h2, h3, ?_, ?_, ?_⟩
  · rw [h4]; decide
  · rw [h5]; decide
  · rw [h6]; decide

/-- C4 counterexample: committing the unparseable seek input "zz" does not
keep the state in SeekInput with the input intact, as claimed: the code
transitions to Normal, clears userInput, resets startByte to 0 (it was
42), and surfaces no error status. -/
theorem c4_seek_commit_failure_cex :
    (rootReducer 25 seekZZState ⟨BinxKeyEnter, ' '⟩).map AppState.mode =
      some Mode.NormalMode ∧
    (rootReducer 25 seekZZState ⟨BinxKeyEnter, ' '⟩).map AppState.mode ≠
      some Mode.SeekInputMode ∧
    (rootReducer 25 seekZZState ⟨BinxKeyEnter, ' '⟩).map AppState.userInput = some "" ∧
    seekZZState.startByte = 42 ∧
    (rootReducer 25 seekZZState ⟨BinxKeyEnter, ' '⟩).map AppState.startByte = some 0 ∧
    (rootReducer 25 seekZZState ⟨BinxKeyEnter, ' '⟩).map AppState.status = some "" := by
  decide

/-- C4 amended: in SeekInput mode, Commit always transitions to Normal and
clears userInput, whether or not the parse succeeds, and sets startByte to
the value returned by ParseInt(userInput, 0, 64) (the parsed value on
success, 0 on a syntax error, the clamped bound on a range error); status
and highlightPos are unchanged; in particular "0x10" yields startByte 16. -/
theorem c4_seek_commit_behavior (screenH : Int) (s : AppState) (c : Char)
    (hm : s.mode = Mode.SeekInputMode) :
    ∃ s2, rootReducer screenH s ⟨BinxKeyEnter, c⟩ = some s2 ∧
      s2.mode = Mode.NormalMode ∧ s2.userInput = "" ∧
      s2.startByte = (goParseInt64 s.userInput.data).1 ∧
      s2.status = s.status ∧ s2.highlightPos = s.highlightPos := by
  obtain ⟨dat, w, h, sb, mode, ui, hp, hl, la, st⟩ := s
  have hm2 : mode = Mode.SeekInputMode := hm
  subst hm2
  exact ⟨_, rfl, rfl, rfl, rfl, rfl, rfl⟩

/-- C4 witness: committing "0x10" in SeekInput mode sets startByte to 16
and returns to Normal with the input cleared. -/
theorem c4_seek_commit_behavior_witness :
    seekHexState.mode = Mode.SeekInputMode ∧
    ∃ s2, rootReducer 25 seekHexState ⟨BinxKeyEnter, ' '⟩ = some s2 ∧
      s2.mode = Mode.NormalMode ∧ s2.userInput = "" ∧ s2.startByte = 16 := by
  refine ⟨rfl, ?_⟩
  obtain ⟨s2, h1, h2, h3, h4, _, _⟩ := c4_seek_commit_behavior 25 seekHexState ' ' rfl
  refine ⟨s2, h1, h2, h3, ?_⟩
  rw [h4]
  decide

/-- C5 counterexample: the empty pattern is not InvalidPattern: decoding
"" succeeds with the empty byte sequence and findBytePattern reports a
match at offset 0 with no error. -/
theorem c5_find_empty_pattern_cex :
    findBytePattern "" [0, 1, 2] = (0, none) ∧
    (findBytePattern "" [0, 1, 2]).2 = none := by decide

/-- C5 amended: an odd-length pattern yields a decode error, a pattern
containing a non-hex character yields a decode error (both reported as
(0, some e), the InvalidPattern outcome); when the pattern decodes but has
no occurrence the result is (-1, none), the NotFound outcome, which is
distinguishable from the error outcome; the empty pattern decodes to the
empty sequence and reports a match at offset 0 with no error. -/
theorem c5_find_failure_outcomes (p : String) (buf : List Nat) :
    (p.data.length % 2 = 1 → ∃ e, findBytePattern p buf = (0, some e)) ∧
    (∀ c ∈ p.data, fromHexChar c = none → ∃ e, findBytePattern p buf = (0, some e)) ∧
    (∀ pat, hexDecodeLoop p.data = Except.ok pat →
      (∀ i, i ≤ buf.length → pat.isPrefixOf (buf.drop i) = false) →
      findBytePattern p buf = (-1, none)) ∧
    (p = "" → findBytePattern p buf = (0, none)) := by
  refine ⟨?_, ?_, ?_, ?_⟩
  · intro hodd
    obtain ⟨e, he⟩ := hexDecodeLoop_odd p.data hodd
    exact ⟨e, by simp only [findBytePattern, he]⟩
  · intro c hc hinv
    obtain ⟨e, he⟩ := hexDecodeLoop_invalid p.data c hc hinv
    exact ⟨e, by simp only [findBytePattern, he]⟩
  · intro pat hdec hmiss
    have hidx := bytesIndexAux_misses pat buf hmiss
    simp only [findBytePattern, hdec, bytesIndex, hidx]
  · intro hp0
    subst hp0
    cases buf with
    | nil => rfl
    | cons b rest => rfl

/-- C5 witness: concrete instances of the four outcomes: odd-length "012",
non-hex "0z", decodable-but-absent "0a" (byte 0x0a not in the buffer), and
the empty pattern. -/
theorem c5_find_failure_outcomes_witness :
    (∃ e, findBytePattern "012" [0, 1] = (0, some e)) ∧
    (∃ e, findBytePattern "0z" [0, 1] = (0, some e)) ∧
    findBytePattern "0a" [0, 1, 2] = (-1, none) ∧
    findBytePattern "" [5] = (0, none) := by
  refine ⟨?_, ?_, ?_, ?_⟩
  · exact (c5_find_failure_outcomes "012" [0, 1]).1 (by decide)
  · exact (c5_find_failure_outcomes "0z" [0, 1]).2.1 'z' (by decide) (by decide)
  · exact (c5_find_failure_outcomes "0a" [0, 1, 2]).2.2.1 [10] rfl (by decide)
  · exact (c5_find_failure_outcomes "" [5]).2.2.2 rfl

/-- C6: whenever the pattern decodes and some occurrence exists in the
buffer, findBytePattern returns the offset of the first occurrence (an
offset where the decoded pattern matches and before which it matches
nowhere) with no error. -/
theorem c6_find_returns_first_occurrence (p : String) (buf pat : List Nat)
    (hdec : hexDecodeLoop p.data = Except.ok pat) (i : Nat)
    (hocc : pat.isPrefixOf (buf.drop i) = true) :
    ∃ k : Nat, findBytePattern p buf = ((k : Int), none) ∧
      pat.isPrefixOf (buf.drop k) = true ∧
      ∀ j < k, pat.isPrefixOf (buf.drop j) = false := by
  obtain ⟨k, hk, h1, h2⟩ := bytesIndexAux_finds pat buf i hocc
  refine ⟨k, ?_, h1, h2⟩
  simp only [findBytePattern, hdec, bytesIndex, hk]

/-- C6 witness: pattern "09" in the buffer 0x00..0x09 is found at the first
(and only) occurrence, offset 9. -/
theorem c6_find_returns_first_occurrence_witness :
    (∃ k : Nat, findBytePattern "09" [0, 1, 2, 3, 4, 5, 6, 7, 8, 9] = ((k : Int), none) ∧
      ([9] : List Nat).isPrefixOf (([0, 1, 2, 3, 4, 5, 6, 7, 8, 9] : List Nat).drop k) = true ∧
      ∀ j < k,
        ([9] : List Nat).isPrefixOf (([0, 1, 2, 3, 4, 5, 6, 7, 8, 9] : List Nat).drop j) = false) ∧
    findBytePattern "09" [0, 1, 2, 3, 4, 5, 6, 7, 8, 9] = (9, none) := by
  constructor
  · exact c6_find_returns_first_occurrence "09" [0, 1, 2, 3, 4, 5, 6, 7, 8, 9] [9] rfl 9
      (by decide)
  · decide

/-- C7: violated by the code. After entering PatternInput mode with the f
key, typing an ordinary printable character (OtherKey with rune for zero)
or pressing s appends nothing: userInput stays empty, because the
BinxKeyOther branch only appends in SeekInput mode and the BinxKeyS branch
only appends in SeekInput mode. -/
theorem c7_pattern_input_typing_ignored :
    (runActions 25 (initialState [1, 2, 3] 25)
        [⟨BinxKeyF, 'f'⟩, ⟨BinxKeyOther, '0'⟩]).map AppState.mode =
      some Mode.PatternInputMode ∧
    (runActions 25 (initialState [1, 2, 3] 25)
        [⟨BinxKeyF, 'f'⟩, ⟨BinxKeyOther, '0'⟩]).map AppState.userInput = some "" ∧
    (runActions 25 (initialState [1, 2, 3] 25)
        [⟨BinxKeyF, 'f'⟩, ⟨BinxKeyS, 's'⟩]).map AppState.userInput = some "" := by decide

/-- C8: ScrollUp (KeyUp) in Normal mode with non-negative startByte and
positive viewport width sets startByte to max(0, startByte - width), and
to exactly 0 whenever startByte < width. -/
theorem c8_scroll_up_clamps (screenH : Int) (s : AppState) (c : Char)
    (h0 : 0 ≤ s.startByte) (hw : 0 < s.byteVisWidth) (hm : s.mode = Mode.NormalMode) :
    ∃ s2, rootReducer screenH s ⟨BinxKeyUp, c⟩ = some s2 ∧
      s2.startByte = max 0 (s.startByte - s.byteVisWidth) ∧
      (s.startByte < s.byteVisWidth → s2.startByte = 0) := by
  obtain ⟨dat, w, h, sb, mode, ui, hp, hl, la, st⟩ := s
  have hm2 : mode = Mode.NormalMode := hm
  subst hm2
  have h0b : (0 : Int) ≤ sb := h0
  have hwb : (0 : Int) < w := hw
  refine ⟨_, rfl, ?_, ?_⟩
  · show (if sb - w < 0 then (0 : Int) else sb - w) = max 0 (sb - w)
    split <;> omega
  · intro hlt
    have hltb : sb < w := hlt
    show (if sb - w < 0 then (0 : Int) else sb - w) = 0
    rw [if_pos (by omega)]

/-- C8 witness: from startByte 30 with width 80, ScrollUp clamps to 0. -/
theorem c8_scroll_up_clamps_witness :
    (0 : Int) ≤ normalAt30State.startByte ∧
    (0 : Int) < normalAt30State.byteVisWidth ∧
    normalAt30State.mode = Mode.NormalMode ∧
    ∃ s2, rootReducer 25 normalAt30State ⟨BinxKeyUp, ' '⟩ = some s2 ∧
      s2.startByte = max 0 (normalAt30State.startByte - normalAt30State.byteVisWidth) ∧
      (normalAt30State.startByte < normalAt30State.byteVisWidth → s2.startByte = 0) :=
  ⟨by decide, by decide, rfl,
    c8_scroll_up_clamps 25 normalAt30State ' ' (by decide) (by decide) rfl⟩

/-- C9: Escape in SeekInput or PatternInput mode returns to Normal with
userInput cleared, leaving startByte and highlightPos unchanged. -/
theorem c9_escape_cancels_input_mode (screenH : Int) (s : AppState) (c : Char)
    (hm : s.mode = Mode.SeekInputMode ∨ s.mode = Mode.PatternInputMode) :
    ∃ s2, rootReducer screenH s ⟨BinxEscape, c⟩ = some s2 ∧
      s2.mode = Mode.NormalMode ∧ s2.userInput = "" ∧
      s2.startByte = s.startByte ∧ s2.highlightPos = s.highlightPos := by
  obtain ⟨dat, w, h, sb, mode, ui, hp, hl, la, st⟩ := s
  rcases hm with hm | hm
  · have hm2 : mode = Mode.SeekInputMode := hm
    subst hm2
    exact ⟨_, rfl, rfl, rfl, rfl, rfl⟩
  · have hm2 : mode = Mode.PatternInputMode := hm
    subst hm2
    exact ⟨_, rfl, rfl, rfl, rfl, rfl⟩

/-- C9 witness: Escape from SeekInput with pending input "123" cancels to
Normal, clears the input, and preserves startByte 7 and highlightPos 3. -/
theorem c9_escape_cancels_input_mode_witness :
    (seekPendingState.mode = Mode.SeekInputMode ∨
      seekPendingState.mode = Mode.PatternInputMode) ∧
    ∃ s2, rootReducer 25 seekPendingState ⟨BinxEscape, ' '⟩ = some s2 ∧
      s2.mode = Mode.NormalMode ∧ s2.userInput = "" ∧
      s2.startByte = 7 ∧ s2.highlightPos = 3 :=
  ⟨Or.inl rfl, c9_escape_cancels_input_mode 25 seekPendingState ' ' (Or.inl rfl)⟩

/-- C10: Enter (Commit) in Normal mode changes nothing except lastAction,
which becomes the action name: an exact frame condition on the whole
record. -/
theorem c10_enter_is_noop_in_normal_mode (screenH : Int) (s : AppState) (c : Char)
    (hm : s.mode = Mode.NormalMode) :
    rootReducer screenH s ⟨BinxKeyEnter, c⟩ = some { s with lastAction := BinxKeyEnter } := by
  obtain ⟨dat, w, h, sb, mode, ui, hp, hl, la, st⟩ := s
  have hm2 : mode = Mode.NormalMode := hm
  subst hm2
  rfl

/-- C10 witness: Enter in the initial (Normal-mode) state only updates
lastAction. -/
theorem c10_enter_is_noop_in_normal_mode_witness :
    rootReducer 25 (initialState [1, 2, 3] 25) ⟨BinxKeyEnter, ' '⟩ =
      some { initialState [1, 2, 3] 25 with lastAction := BinxKeyEnter } :=
  c10_enter_is_noop_in_normal_mode 25 (initialState [1, 2, 3] 25) ' ' rfl

end Binx
